import Mathlib

/-!
Shallow embedding of the kubemc core (src/discovery.rs and src/client.rs):
the disk discovery cache (host-key derivation, cache parsing into alias
sets, name lookup), the live-discovery resolution fallback, and the
fan-out list executor.  File-system walking, JSON parsing and the network
are modelled at their boundaries: a cache file is represented by the
outcome of parsing it, a cluster pipeline by the outcomes of its stages.
All character-class reasoning is done over ASCII, matching the concrete
strings that appear in the code and its tests (Rust's regex `\w` is
Unicode-aware, but every claim here concerns ASCII input).
-/

/-- Rust `u8::to_ascii_lowercase` lifted to characters: `A`..`Z` map to
`a`..`z`, everything else is unchanged.  Lean core's `Char.toLower` has
exactly this ASCII behaviour, which we reuse. -/
def asciiLower (c : Char) : Char := c.toLower

/-- Rust `str::eq_ignore_ascii_case`: equality after ASCII lowercasing of
both sides. -/
def eqIgnoreAsciiCase (a b : String) : Bool :=
  a.data.map asciiLower == b.data.map asciiLower

/-- Rust `str::to_lowercase` restricted to ASCII (the code applies it to
resource kinds and plural names, which are ASCII in the Kubernetes API). -/
def strToLower (s : String) : String := ⟨s.data.map asciiLower⟩

/-- Fuel-indexed worker for `removeAll`; the fuel is only a structural
termination device, `removeAll` supplies enough of it for the scan to
finish. -/
def removeAllAux (pat : List Char) : Nat → List Char → List Char
  | 0, s => s
  | _ + 1, [] => []
  | fuel + 1, c :: rest =>
    if pat ≠ [] ∧ pat.isPrefixOf (c :: rest) then
      removeAllAux pat fuel ((c :: rest).drop pat.length)
    else
      c :: removeAllAux pat fuel rest

/-- Rust `str::replace(pat, "")`: delete every non-overlapping occurrence
of `pat`, scanning left to right. -/
def removeAll (pat s : List Char) : List Char :=
  removeAllAux pat s.length s

/-- Character class of the regex `[^(\w/\.)]` in
`parse_kube_url_to_discovery` (src/discovery.rs:61): a character is KEPT
(not replaced by `_`) iff it is a word character (`\w`, i.e. letter,
digit or underscore), `(`, `)`, `/` or `.` — the parentheses in the
regex source are inside the character class, so they are literal members
of it. -/
def keepChar (c : Char) : Bool :=
  c.isAlphanum || c = '_' || c = '(' || c = ')' || c = '/' || c = '.'

/-- src/discovery.rs:60-67 `parse_kube_url_to_discovery`: remove every
occurrence of `"https://"`, then of `"http://"`, then every `'/'`, then
replace each character outside the regex class by `'_'`.  The Rust
function's only exit is `Ok(..)`; the `Result` error branch is never
produced. -/
def parse_kube_url_to_discovery (url : String) : Except String String :=
  let hp := removeAll "https://".data url.data
  let hp := removeAll "http://".data hp
  let hp := hp.filter (fun c => c ≠ '/')
  Except.ok ⟨hp.map (fun c => if keepChar c then c else '_')⟩

/-- kube's `discovery::Scope` (referenced throughout src/discovery.rs and
src/client.rs). -/
inductive Scope where
  | cluster
  | namespaced
deriving DecidableEq, Repr

/-- kube's `discovery::ApiResource` as populated by
`ApiResourceList::get_api_resources` (src/discovery.rs:153-159). -/
structure ApiResource where
  group : String
  version : String
  api_version : String
  kind : String
  plural : String
deriving DecidableEq, Repr

/-- src/discovery.rs:13-21 `DiscoveryResource`. -/
structure DiscoveryResource where
  kind : List String
  api_resource : ApiResource
  scope : Scope
deriving DecidableEq, Repr

/-- src/discovery.rs:9-11 `Discovery`. -/
structure Discovery where
  resources : List DiscoveryResource
deriving DecidableEq, Repr

/-- src/discovery.rs:47-56 `Discovery::get_resource_from_name`: the first
resource (in vector order) one of whose aliases equals `name` up to ASCII
case wins; otherwise the `resource {name} not found` error. -/
def Discovery.get_resource_from_name (d : Discovery) (name : String) :
    Except String (ApiResource × Scope) :=
  match d.resources.find? (fun r => r.kind.any (fun k => eqIgnoreAsciiCase k name)) with
  | some r => Except.ok (r.api_resource, r.scope)
  | none => Except.error ("resource " ++ name ++ " not found")

/-- src/discovery.rs:199-210 `Verb`. -/
inductive Verb where
  | create
  | delete
  | deleteCollection
  | get
  | list
  | patch
  | update
  | watch
deriving DecidableEq, Repr

/-- src/discovery.rs:185-197 `Resource`: one entry of a cached API
resource listing document. -/
structure Resource where
  name : String
  singular_name : Option String
  namespaced : Bool
  kind : String
  group : Option String
  short_names : Option (List String)
  verbs : List Verb
  storage_version_hash : Option String
deriving DecidableEq, Repr

/-- src/discovery.rs:129-137 `ApiResourceList`: one parsed cache file. -/
structure ApiResourceList where
  kind : String
  api_version : String
  group_version : String
  resources : List Resource
deriving DecidableEq, Repr

/-- Rust `group_version.split_once('/')` taking the first component, with
`""` when there is no `'/'` (src/discovery.rs:147-150). -/
def groupOfGroupVersion (gv : String) : String :=
  if gv.data.contains '/' then ⟨gv.data.takeWhile (fun c => c ≠ '/')⟩ else ""

/-- src/discovery.rs:146-182 `ApiResourceList::get_api_resources`: one
`DiscoveryResource` per listed entry.  The alias vector is the lowercased
kind and lowercased plural name, followed by the short names pushed
verbatim (`s.to_string()`, no lowercasing). -/
def ApiResourceList.get_api_resources (arl : ApiResourceList) : List DiscoveryResource :=
  arl.resources.map (fun resource =>
    { kind := [strToLower resource.kind, strToLower resource.name] ++
        resource.short_names.getD []
      api_resource :=
        { group := groupOfGroupVersion arl.group_version
          version := arl.api_version
          api_version := arl.group_version
          kind := resource.kind
          plural := resource.name }
      scope := if resource.namespaced then Scope.namespaced else Scope.cluster })

/-- src/discovery.rs:36-44, the parsing loop of
`Discovery::new_from_default_cache`: each cache file is represented by the
outcome of `ApiResourceList::try_from_str` on its contents; a parse error
is logged and skipped, a success has its resources appended. -/
def discovery_from_files (files : List (Except String ApiResourceList)) : Discovery :=
  { resources :=
      files.foldl
        (fun acc file =>
          match file with
          | Except.ok arl => acc ++ arl.get_api_resources
          | Except.error _ => acc)
        [] }

/-- kube's `discovery::ApiCapabilities` restricted to the field the code
reads (`cap.scope`, src/client.rs:91). -/
structure ApiCapabilities where
  scope : Scope
deriving DecidableEq, Repr

/-- One API group of kube's live `Discovery` as consumed by
`resolve_api_resource` (src/client.rs:302-309): its name and the resource
list returned by `resources_by_stability` (each group's resources at its
recommended version). -/
structure LiveApiGroup where
  name : String
  resources_by_stability : List (ApiResource × ApiCapabilities)
deriving DecidableEq, Repr

/-- One step of Rust `Iterator::min_by_key`: keep the earlier element
unless the new one is strictly smaller, so the first minimum wins.  The
key is the character list of a string, ordered lexicographically — the
order Rust's `Ord for &str` uses on ASCII data. -/
def minByStep (key : α → List Char) (acc : Option α) (x : α) : Option α :=
  match acc with
  | none => some x
  | some b => if key x < key b then some x else some b

/-- Rust `Iterator::min_by_key` over a list. -/
def min_by_key (key : α → List Char) (xs : List α) : Option α :=
  xs.foldl (minByStep key) none

/-- src/client.rs:295-317 `resolve_api_resource`: flatten every group's
stable resources, keep those whose kind or plural name equals the query
up to ASCII case (short names are never consulted), and take the match
whose group name is minimal. -/
def resolve_api_resource (groups : List LiveApiGroup) (name : String) :
    Option (ApiResource × ApiCapabilities) :=
  let candidates := groups.flatMap
    (fun group => group.resources_by_stability.map (fun res => (group, res)))
  let matching := candidates.filter
    (fun c => eqIgnoreAsciiCase name c.2.1.kind || eqIgnoreAsciiCase name c.2.1.plural)
  (min_by_key (fun c => c.1.name.data) matching).map (fun c => c.2)

/-- Live branch of `create_client` (src/client.rs:83-99): running kube's
live discovery may itself fail (`.run().await.context(..)?`); on success
`resolve_api_resource` either yields the resource or the
`discovery of resource .. failed` error. -/
def create_client_live (live : Except String (List LiveApiGroup))
    (resource : String) : Except String (ApiResource × Scope) :=
  match live with
  | Except.error e => Except.error e
  | Except.ok groups =>
    match resolve_api_resource groups resource with
    | some (ar, cap) => Except.ok (ar, cap.scope)
    | none => Except.error ("discovery of resource " ++ resource ++ " failed")

/-- src/client.rs:57-100 `create_client`, at the resolution level: `cache`
is the outcome of `Discovery::new_from_default_cache` (an error when the
cache tree is absent or unreadable).  A cache hit returns immediately;
on any cache failure the live path runs.  Connection setup and the typed
client construction around the resolution are network effects outside the
embedding. -/
def create_client (cache : Except String Discovery)
    (live : Except String (List LiveApiGroup))
    (resource : String) : Except String (ApiResource × Scope) :=
  match cache with
  | Except.ok d =>
    match d.get_resource_from_name resource with
    | Except.ok rs => Except.ok rs
    | Except.error _ => create_client_live live resource
  | Except.error _ => create_client_live live resource

/-- Whether the disk-cache lookup stage failed for `resource`: the cache
read itself errored, or no alias matched. -/
def cacheLookupFailed (cache : Except String Discovery) (resource : String) : Bool :=
  match cache with
  | Except.error _ => true
  | Except.ok d => !(d.get_resource_from_name resource).isOk

/-- Whether the live-discovery lookup stage failed for `resource`: the
live discovery run errored, or no kind/plural matched. -/
def liveLookupFailed (live : Except String (List LiveApiGroup))
    (resource : String) : Bool :=
  match live with
  | Except.error _ => true
  | Except.ok groups => (resolve_api_resource groups resource).isNone

/-- One cluster target of the fan-out run (src/client.rs:29-54), carrying
the outcomes of its pipeline stages: `create` is what `create_client`
produced for it (connection plus resolution), `listResult` what its list
call would return.  Items of the `ObjectList<DynamicObject>` are opaque
here. -/
structure PipelineSpec where
  name : String
  create : Except String Unit
  listResult : Except String (List String)

/-- src/client.rs:19-21 `Client`: the per-cluster clients that were
successfully created. -/
structure Client where
  kubeclients : List PipelineSpec

/-- src/client.rs:23-26 `ListResponse`. -/
structure ListResponse where
  clustername : String
  object_list : List String
deriving DecidableEq, Repr

/-- src/client.rs:29-50 `Client::try_new`: every target is attempted; a
target whose `create_client` failed is logged and dropped, the rest are
kept in order (the joined task results preserve spawn order). -/
def Client.try_new (targets : List PipelineSpec) : Client :=
  { kubeclients := targets.filter (fun t => t.create.isOk) }

/-- src/client.rs:143-172 `list_resources`: one `ListResponse` per client
whose list call succeeded; a failed list call is logged and dropped. -/
def list_resources (client : Client) : List ListResponse :=
  client.kubeclients.filterMap (fun t =>
    match t.listResult with
    | Except.ok ol => some { clustername := t.name, object_list := ol }
    | Except.error _ => none)

/-- The whole fan-out run (src/client.rs `Client::try_new` followed by
`Client::list`). -/
def runFanOut (targets : List PipelineSpec) : List ListResponse :=
  list_resources (Client.try_new targets)

/-- A target succeeded through the list call: its client was created and
its list call returned. -/
def targetSucceeded (t : PipelineSpec) : Bool :=
  t.create.isOk && t.listResult.isOk

deriving instance DecidableEq for Except

/-- Host-key derivation as claim C1 words it: strip a single leading
`"http://"` or `"https://"` scheme, strip all `'/'` characters, then
replace every character that is not a letter, digit, underscore or dot
by `'_'`.  Stated from the spec sentence, for comparison with
`parse_kube_url_to_discovery`. -/
def hostKeyClaim (url : String) : String :=
  let s := url.data
  let s :=
    if "https://".data.isPrefixOf s then s.drop 8
    else if "http://".data.isPrefixOf s then s.drop 7
    else s
  let s := s.filter (fun c => c ≠ '/')
  ⟨s.map (fun c => if c.isAlphanum || c = '_' || c = '.' then c else '_')⟩

/-- Host-key derivation as the code actually behaves (the amendment of
claim C1): remove every occurrence of `"https://"` and then of
`"http://"` anywhere in the string, strip all `'/'` characters, then
replace every character that is not a letter, digit, underscore, dot,
`'('` or `')'` by `'_'` — the parentheses in the regex `[^(\w/\.)]` are
literal members of its character class. -/
def hostKeyAmended (url : String) : String :=
  let hp := removeAll "https://".data url.data
  let hp := removeAll "http://".data hp
  let hp := hp.filter (fun c => c ≠ '/')
  ⟨hp.map (fun c =>
    if c.isAlphanum || c = '_' || c = '(' || c = ')' || c = '.' then c else '_')⟩

/-- C1 counterexample: on `"https://ex.io/(a)_https://b:1"` the code
removes the second, embedded `"https://"` as well (it deletes every
occurrence, not only a leading prefix) and keeps the parentheses, so it
returns `"ex.io(a)_b_1"`, while the transformation described by the
claim would return `"ex.io_a__https_b_1"`. -/
theorem c1_hostkey_counterexample :
    parse_kube_url_to_discovery "https://ex.io/(a)_https://b:1" =
      Except.ok "ex.io(a)_b_1" ∧
    hostKeyClaim "https://ex.io/(a)_https://b:1" = "ex.io_a__https_b_1" ∧
    parse_kube_url_to_discovery "https://ex.io/(a)_https://b:1" ≠
      Except.ok (hostKeyClaim "https://ex.io/(a)_https://b:1") := by
  refine ⟨by decide, by decide, by decide⟩

/-- C1 amended: the host-key derivation removes every occurrence of
`"https://"` and then `"http://"` anywhere in the input (not only a
leading prefix), strips all `'/'` characters, and replaces every
character that is not a letter, digit, underscore, dot or parenthesis
with `'_'`; in particular `"https://carson.cloud.example.io:443"`
derives to `"carson.cloud.example.io_443"`. -/
theorem c1_hostkey_amended :
    (∀ url, parse_kube_url_to_discovery url = Except.ok (hostKeyAmended url)) ∧
    parse_kube_url_to_discovery "https://carson.cloud.example.io:443" =
      Except.ok "carson.cloud.example.io_443" := by
  constructor
  · intro url
    simp only [parse_kube_url_to_discovery, hostKeyAmended]
    refine congrArg (fun l => Except.ok (String.mk l)) (List.map_congr_left ?_)
    intro c hc
    have hslash : ¬ c = '/' := by
      have := (List.mem_filter.mp hc).2
      exact of_decide_eq_true this
    have hkeep : keepChar c =
        (c.isAlphanum || c = '_' || c = '(' || c = ')' || c = '.') := by
      simp [keepChar, hslash]
    rw [hkeep]
  · decide

/-- C10: for every input string the host-key derivation returns `Ok`; the
error branch of its `Result` signature is never produced. -/
theorem c10_hostkey_total :
    ∀ url : String, ∃ out, parse_kube_url_to_discovery url = Except.ok out :=
  fun _ => ⟨_, rfl⟩

/-- Correspondence between the entries produced by a `List.map` and the
source entries they were built from, via `zip`. -/
theorem zip_map_self {α β : Type _} (f : α → β) :
    ∀ (l : List α) (p : β × α), p ∈ (l.map f).zip l → p.1 = f p.2 := by
  intro l
  induction l with
  | nil => intro p hp; cases hp
  | cons a t ih =>
    intro p hp
    rw [List.map_cons, List.zip_cons_cons] at hp
    rcases List.mem_cons.mp hp with h | h
    · rw [h]
    · exact ih p h

/-- Cache entry of spec Scenario 1: DaemonSet with short name `"ds"`. -/
def dsResource : Resource :=
  { name := "daemonsets"
    singular_name := some "daemonset"
    namespaced := true
    kind := "DaemonSet"
    group := none
    short_names := some ["ds"]
    verbs := [Verb.get, Verb.list, Verb.watch]
    storage_version_hash := none }

/-- Cache file of spec Scenario 1. -/
def arlDS : ApiResourceList :=
  { kind := "APIResourceList"
    api_version := "v1"
    group_version := "apps/v1"
    resources := [dsResource] }

/-- Descriptor that `get_api_resources` builds for `dsResource`. -/
def dsApiResource : ApiResource :=
  { group := "apps"
    version := "v1"
    api_version := "apps/v1"
    kind := "DaemonSet"
    plural := "daemonsets" }

/-- Discovery entry that `get_api_resources` builds for `dsResource`. -/
def dsDiscoveryResource : DiscoveryResource :=
  { kind := ["daemonset", "daemonsets", "ds"]
    api_resource := dsApiResource
    scope := Scope.namespaced }

/-- Cache entry whose short name carries upper-case letters, to probe
whether short-name aliases are lowercased. -/
def upperShortResource : Resource :=
  { name := "daemonsets"
    singular_name := some "daemonset"
    namespaced := true
    kind := "DaemonSet"
    group := none
    short_names := some ["DS"]
    verbs := [Verb.get, Verb.list]
    storage_version_hash := none }

/-- Cache file holding `upperShortResource`. -/
def arlUpperShort : ApiResourceList :=
  { kind := "APIResourceList"
    api_version := "v1"
    group_version := "apps/v1"
    resources := [upperShortResource] }

/-- C4 counterexample: for the cache entry with `shortNames=["DS"]` the
built alias set is `["daemonset", "daemonsets", "DS"]` — the short name
is copied verbatim (src/discovery.rs:172 pushes `s.to_string()`), so the
alias set is NOT all-lowercase as the claim states. -/
theorem c4_alias_counterexample :
    (arlUpperShort.get_api_resources).map (fun r => r.kind) =
      [["daemonset", "daemonsets", "DS"]] ∧
    ¬ (∀ dr ∈ arlUpperShort.get_api_resources, ∀ a ∈ dr.kind, strToLower a = a) := by
  refine ⟨by decide, by decide⟩

/-- C4 amended: the alias set built from a cache entry is the lowercase
form of its kind and of its plural name, followed by every listed short
name copied verbatim (short names are not lowercased, so an alias set is
all-lowercase only when the listed short names already are). -/
theorem c4_alias_amended :
    ∀ arl : ApiResourceList,
      (arl.get_api_resources).map (fun r => r.kind) =
        arl.resources.map (fun r =>
          [strToLower r.kind, strToLower r.name] ++ r.short_names.getD []) := by
  intro arl
  simp [ApiResourceList.get_api_resources, List.map_map]

/-- C8: a descriptor built from a parsed cache entry is namespace-scoped
iff the entry's `namespaced` field is true; and (Scenario 1) a cache with
the DaemonSet entry above resolves `"ds"` to kind `"DaemonSet"` with
namespaced scope. -/
theorem c8_scope_iff_namespaced :
    (∀ arl : ApiResourceList, ∀ p ∈ (arl.get_api_resources).zip arl.resources,
      (p.1.scope = Scope.namespaced ↔ p.2.namespaced = true)) ∧
    (discovery_from_files [Except.ok arlDS]).get_resource_from_name "ds" =
      Except.ok (dsApiResource, Scope.namespaced) := by
  constructor
  · intro arl p hp
    simp only [ApiResourceList.get_api_resources] at hp
    have h1 := zip_map_self _ arl.resources p hp
    rw [h1]
    cases h2 : p.2.namespaced <;> simp [h2]
  · decide

/-- C8 witness: the theorem instantiated at `arlDS` and the pair built
from its single entry. -/
theorem c8_scope_iff_namespaced_witness :
    dsDiscoveryResource.scope = Scope.namespaced ↔ dsResource.namespaced = true :=
  c8_scope_iff_namespaced.1 arlDS (dsDiscoveryResource, dsResource) (by decide)

/-- C9: every descriptor built from one parsed cache file carries the
file's top-level `apiVersion` in its `version` field and the file's
`groupVersion` verbatim in its `api_version` field. -/
theorem c9_version_fields :
    ∀ arl : ApiResourceList, ∀ dr ∈ arl.get_api_resources,
      dr.api_resource.version = arl.api_version ∧
      dr.api_resource.api_version = arl.group_version := by
  intro arl dr hdr
  simp only [ApiResourceList.get_api_resources] at hdr
  rcases List.mem_map.mp hdr with ⟨r, _, rfl⟩
  exact ⟨rfl, rfl⟩

/-- Cache file whose `groupVersion` has a version component differing
from the listing schema version, making C9's distinction visible. -/
def arlBeta : ApiResourceList :=
  { kind := "APIResourceList"
    api_version := "v1"
    group_version := "apps/v1beta1"
    resources := [dsResource] }

/-- Discovery entry built from `arlBeta`: its `version` is `"v1"` (the
listing schema version), not `"v1beta1"` (the `groupVersion` component),
and its `api_version` is `"apps/v1beta1"` verbatim. -/
def betaDiscoveryResource : DiscoveryResource :=
  { kind := ["daemonset", "daemonsets", "ds"]
    api_resource :=
      { group := "apps"
        version := "v1"
        api_version := "apps/v1beta1"
        kind := "DaemonSet"
        plural := "daemonsets" }
    scope := Scope.namespaced }

/-- C9 witness: the theorem instantiated at `arlBeta` and its single
built descriptor. -/
theorem c9_version_fields_witness :
    betaDiscoveryResource.api_resource.version = arlBeta.api_version ∧
    betaDiscoveryResource.api_resource.api_version = arlBeta.group_version :=
  c9_version_fields arlBeta betaDiscoveryResource (by decide)

/-- C5: when some alias set in the cache matches name `x`, looking up any
ASCII-case permutation `y` of `x` returns the identical descriptor and
scope (the first matching resource in traversal order, matched
case-insensitively). -/
theorem c5_lookup_case_insensitive (d : Discovery) (x y : String)
    (hperm : x.data.map asciiLower = y.data.map asciiLower)
    (hmatch : d.resources.any
      (fun r => r.kind.any (fun k => eqIgnoreAsciiCase k x)) = true) :
    d.get_resource_from_name x = d.get_resource_from_name y ∧
    (d.get_resource_from_name x).isOk = true := by
  have hpred : ∀ k : String, eqIgnoreAsciiCase k x = eqIgnoreAsciiCase k y := by
    intro k
    unfold eqIgnoreAsciiCase
    rw [hperm]
  have hfun : (fun r : DiscoveryResource =>
      r.kind.any (fun k => eqIgnoreAsciiCase k x)) =
      (fun r => r.kind.any (fun k => eqIgnoreAsciiCase k y)) := by
    funext r
    congr 1
    funext k
    exact hpred k
  have hsome : (d.resources.find?
      (fun r => r.kind.any (fun k => eqIgnoreAsciiCase k x))).isSome :=
    List.find?_isSome.mpr (List.any_eq_true.mp hmatch)
  rcases Option.isSome_iff_exists.mp hsome with ⟨r, hr⟩
  have hr' : d.resources.find?
      (fun r => r.kind.any (fun k => eqIgnoreAsciiCase k y)) = some r := by
    rw [← hfun]
    exact hr
  unfold Discovery.get_resource_from_name
  rw [hr, hr']
  exact ⟨rfl, rfl⟩

/-- C5 witness: on the DaemonSet cache, `"DS"`, `"Ds"` and `"ds"` resolve
identically. -/
theorem c5_lookup_case_insensitive_witness :
    (discovery_from_files [Except.ok arlDS]).get_resource_from_name "DS" =
      (discovery_from_files [Except.ok arlDS]).get_resource_from_name "ds" ∧
    ((discovery_from_files [Except.ok arlDS]).get_resource_from_name "DS").isOk
      = true :=
  c5_lookup_case_insensitive (discovery_from_files [Except.ok arlDS]) "DS" "ds"
    (by decide) (by decide)

/-- Cache entry of spec Scenario 4: the core Pod resource. -/
def podResource : Resource :=
  { name := "pods"
    singular_name := some "pod"
    namespaced := true
    kind := "Pod"
    group := none
    short_names := some ["po"]
    verbs := [Verb.get, Verb.list, Verb.watch]
    storage_version_hash := none }

/-- Cache file of spec Scenario 4 (core group: `groupVersion` has no
`'/'`, so the derived group is empty). -/
def arlPod : ApiResourceList :=
  { kind := "APIResourceList"
    api_version := "v1"
    group_version := "v1"
    resources := [podResource] }

/-- Descriptor that `get_api_resources` builds for `podResource`. -/
def podApiResource : ApiResource :=
  { group := ""
    version := "v1"
    api_version := "v1"
    kind := "Pod"
    plural := "pods" }

/-- Accumulator-generalised shape of the cache-building fold: unparsable
files contribute nothing, parsable files contribute their resources in
order. -/
theorem discovery_fold_eq_flatMap :
    ∀ (files : List (Except String ApiResourceList)) (acc : List DiscoveryResource),
      files.foldl
        (fun acc file =>
          match file with
          | Except.ok arl => acc ++ arl.get_api_resources
          | Except.error _ => acc)
        acc
      = acc ++ (files.filterMap Except.toOption).flatMap
          ApiResourceList.get_api_resources := by
  intro files
  induction files with
  | nil => intro acc; simp
  | cons f t ih =>
    intro acc
    cases f with
    | ok arl => simp [List.filterMap_cons, Except.toOption, ih, List.append_assoc]
    | error e => simp [List.filterMap_cons, Except.toOption, ih]

/-- C7: building the cache from a collection of files incorporates every
parsable file and skips every unparsable one; in particular (Scenario 4)
a cache with one unparsable file and one valid file defining Pod still
resolves `"pod"`. -/
theorem c7_parse_failures_skipped :
    (∀ files : List (Except String ApiResourceList),
      (discovery_from_files files).resources =
        (files.filterMap Except.toOption).flatMap
          ApiResourceList.get_api_resources) ∧
    (discovery_from_files
        [Except.error "failed to parse ApiResourceList: expected value",
         Except.ok arlPod]).get_resource_from_name "pod" =
      Except.ok (podApiResource, Scope.namespaced) := by
  constructor
  · intro files
    unfold discovery_from_files
    rw [discovery_fold_eq_flatMap]
    simp
  · decide

/-- Unfolding of the fan-out run over the next target: a target that
succeeded through the list call contributes one response, any failed
target contributes nothing. -/
theorem runFanOut_cons (t : PipelineSpec) (ts : List PipelineSpec) :
    runFanOut (t :: ts) =
      if targetSucceeded t then
        { clustername := t.name, object_list := t.listResult.toOption.getD [] } ::
          runFanOut ts
      else runFanOut ts := by
  unfold runFanOut Client.try_new list_resources targetSucceeded
  cases hc : t.create <;> cases hl : t.listResult <;>
    simp [hc, hl, List.filter_cons, Except.isOk, Except.toBool,
      List.filterMap_cons, Except.toOption]

/-- The fan-out run is exactly the successful targets, in order, each
mapped to its response. -/
theorem runFanOut_eq_filter (targets : List PipelineSpec) :
    runFanOut targets = (targets.filter targetSucceeded).map
      (fun t => { clustername := t.name
                  object_list := t.listResult.toOption.getD [] }) := by
  induction targets with
  | nil => rfl
  | cons t ts ih =>
    rw [runFanOut_cons]
    cases hs : targetSucceeded t <;> simp [List.filter_cons, hs, ih]

/-- Splitting a list by a predicate preserves its length. -/
theorem length_filter_add_not {α : Type _} (p : α → Bool) :
    ∀ l : List α, (l.filter p).length + (l.filter (fun a => !p a)).length
      = l.length := by
  intro l
  induction l with
  | nil => rfl
  | cons a t ih => cases h : p a <;> simp [List.filter_cons, h] <;> omega

/-- C2: with K targets of which M fail at some pipeline stage, the
fan-out run returns exactly K − M responses — one per target that
succeeded through the list call, in order, and none for a failed target;
when every target fails the run returns the empty list rather than an
error. -/
theorem c2_fanout_partial_failure (targets : List PipelineSpec) :
    (runFanOut targets).length +
      (targets.filter (fun t => !targetSucceeded t)).length = targets.length ∧
    (runFanOut targets).map (fun r => r.clustername) =
      (targets.filter targetSucceeded).map (fun t => t.name) ∧
    (targets.all (fun t => !targetSucceeded t) = true → runFanOut targets = []) := by
  refine ⟨?_, ?_, ?_⟩
  · rw [runFanOut_eq_filter, List.length_map]
    exact length_filter_add_not targetSucceeded targets
  · rw [runFanOut_eq_filter, List.map_map]
    rfl
  · intro hall
    rw [runFanOut_eq_filter]
    have : targets.filter targetSucceeded = [] := by
      apply List.filter_eq_nil_iff.mpr
      intro a ha
      have := List.all_eq_true.mp hall a ha
      simp at this
      simp [this]
    rw [this]
    rfl

/-- Fan-out fixture: a target failing at the connection stage. -/
def failedTarget : PipelineSpec :=
  { name := "b"
    create := Except.error "failed to create client"
    listResult := Except.error "unreached" }

/-- Fan-out fixture: a target succeeding through the list call. -/
def okTargetA : PipelineSpec :=
  { name := "a"
    create := Except.ok ()
    listResult := Except.ok ["pod-1", "pod-2"] }

/-- Fan-out fixture: a second succeeding target. -/
def okTargetC : PipelineSpec :=
  { name := "c"
    create := Except.ok ()
    listResult := Except.ok ["pod-3"] }

/-- C2 witness: the theorem instantiated on Scenario 3 (targets a, b, c
with b failing) and, for the implication, on an all-failing run. -/
theorem c2_fanout_partial_failure_witness :
    (runFanOut [okTargetA, failedTarget, okTargetC]).length +
      ([okTargetA, failedTarget, okTargetC].filter
        (fun t => !targetSucceeded t)).length = 3 ∧
    runFanOut [failedTarget] = [] :=
  ⟨(c2_fanout_partial_failure [okTargetA, failedTarget, okTargetC]).1,
   (c2_fanout_partial_failure [failedTarget]).2.2 (by decide)⟩

/-- An element produced by the `min_by_key` fold comes from the list or
from the initial accumulator. -/
theorem min_by_key_fold_mem {α : Type _} (key : α → List Char) :
    ∀ (xs : List α) (acc : Option α) (m : α),
      xs.foldl (minByStep key) acc = some m → m ∈ xs ∨ acc = some m := by
  intro xs
  induction xs with
  | nil => intro acc m h; exact Or.inr h
  | cons x t ih =>
    intro acc m h
    rw [List.foldl_cons] at h
    rcases ih (minByStep key acc x) m h with hm | hm
    · exact Or.inl (List.mem_cons_of_mem x hm)
    · cases acc with
      | none =>
        simp [minByStep] at hm
        subst hm
        exact Or.inl (List.mem_cons_self x t)
      | some b =>
        by_cases hlt : key x < key b
        · simp [minByStep, hlt] at hm
          subst hm
          exact Or.inl (List.mem_cons_self x t)
        · simp [minByStep, hlt] at hm
          subst hm
          exact Or.inr rfl

/-- The element produced by the `min_by_key` fold has a key no larger
than that of any list element and of the initial accumulator. -/
theorem min_by_key_fold_le {α : Type _} (key : α → List Char) :
    ∀ (xs : List α) (acc : Option α) (m : α),
      xs.foldl (minByStep key) acc = some m →
      (∀ x ∈ xs, key m ≤ key x) ∧ (∀ b, acc = some b → key m ≤ key b) := by
  intro xs
  induction xs with
  | nil =>
    intro acc m h
    rw [List.foldl_nil] at h
    refine ⟨fun x hx => absurd hx (List.not_mem_nil x), fun b hb => ?_⟩
    rw [hb] at h
    exact le_of_eq (congrArg key (Option.some.inj h).symm)
  | cons x t ih =>
    intro acc m h
    rw [List.foldl_cons] at h
    obtain ⟨h1, h2⟩ := ih (minByStep key acc x) m h
    have hx : key m ≤ key x := by
      cases acc with
      | none => exact h2 x rfl
      | some b =>
        by_cases hlt : key x < key b
        · exact h2 x (by simp [minByStep, hlt])
        · exact le_trans (h2 b (by simp [minByStep, hlt])) (le_of_not_lt hlt)
    refine ⟨fun y hy => ?_, fun b hb => ?_⟩
    · rcases List.mem_cons.mp hy with rfl | hy'
      · exact hx
      · exact h1 y hy'
    · cases acc with
      | none => cases hb
      | some b' =>
        have hbb : b' = b := Option.some.inj hb
        subst hbb
        by_cases hlt : key x < key b'
        · exact le_trans hx (le_of_lt hlt)
        · exact h2 b' (by simp [minByStep, hlt])

/-- C6: whatever the live lookup returns was matched case-insensitively
on its kind or plural name only, and comes from a group whose name is
lexicographically no larger than that of any group holding a matching
resource. -/
theorem c6_live_lookup_min_group (groups : List LiveApiGroup) (name : String)
    (ar : ApiResource) (cap : ApiCapabilities)
    (h : resolve_api_resource groups name = some (ar, cap)) :
    ∃ g ∈ groups,
      (ar, cap) ∈ g.resources_by_stability ∧
      (eqIgnoreAsciiCase name ar.kind || eqIgnoreAsciiCase name ar.plural) = true ∧
      ∀ g' ∈ groups, ∀ r' ∈ g'.resources_by_stability,
        (eqIgnoreAsciiCase name r'.1.kind ||
          eqIgnoreAsciiCase name r'.1.plural) = true →
        g.name ≤ g'.name := by
  simp only [resolve_api_resource] at h
  rcases Option.map_eq_some'.mp h with ⟨c, hc, hc2⟩
  unfold min_by_key at hc
  have hmem : c ∈ (groups.flatMap (fun group =>
      group.resources_by_stability.map (fun res => (group, res)))).filter
      (fun c => eqIgnoreAsciiCase name c.2.1.kind ||
        eqIgnoreAsciiCase name c.2.1.plural) := by
    rcases min_by_key_fold_mem (fun c => c.1.name.data) _ none c hc with hm | hm
    · exact hm
    · cases hm
  have hle := (min_by_key_fold_le (fun c => c.1.name.data) _ none c hc).1
  obtain ⟨hcand, hpred⟩ := List.mem_filter.mp hmem
  rcases List.mem_flatMap.mp hcand with ⟨g, hg, hcg⟩
  rcases List.mem_map.mp hcg with ⟨res, hres, hceq⟩
  refine ⟨g, hg, ?_, ?_, ?_⟩
  · rw [← hc2, ← hceq]
    exact hres
  · have har : c.2.1 = ar := by rw [hc2]
    rw [← har]
    exact hpred
  · intro g' hg' r' hr' hmatch
    have hmem' : (g', r') ∈ (groups.flatMap (fun group =>
        group.resources_by_stability.map (fun res => (group, res)))).filter
        (fun c => eqIgnoreAsciiCase name c.2.1.kind ||
          eqIgnoreAsciiCase name c.2.1.plural) := by
      refine List.mem_filter.mpr ⟨?_, hmatch⟩
      exact List.mem_flatMap.mpr ⟨g', hg', List.mem_map.mpr ⟨r', hr', rfl⟩⟩
    have hdata := hle (g', r') hmem'
    rw [← hceq] at hdata
    rw [String.le_iff_toList_le]
    exact hdata

/-- Live catalog fixture for spec Scenario 2: Deployment exposed by the
`"apps"` group. -/
def appsDeployment : ApiResource :=
  { group := "apps"
    version := "v1"
    api_version := "apps/v1"
    kind := "Deployment"
    plural := "deployments" }

/-- Live catalog fixture for spec Scenario 2: Deployment exposed by the
`"extensions"` group. -/
def extensionsDeployment : ApiResource :=
  { group := "extensions"
    version := "v1beta1"
    api_version := "extensions/v1beta1"
    kind := "Deployment"
    plural := "deployments" }

/-- The `"apps"` live group. -/
def appsGroup : LiveApiGroup :=
  { name := "apps"
    resources_by_stability := [(appsDeployment, { scope := Scope.namespaced })] }

/-- The `"extensions"` live group. -/
def extensionsGroup : LiveApiGroup :=
  { name := "extensions"
    resources_by_stability :=
      [(extensionsDeployment, { scope := Scope.namespaced })] }

/-- C6 witness: with Deployment in both `"extensions"` and `"apps"`, the
lookup of `"deployment"` selects the `"apps"` group, the
lexicographically smallest. -/
theorem c6_live_lookup_min_group_witness :
    ∃ g ∈ [extensionsGroup, appsGroup],
      (appsDeployment, ({ scope := Scope.namespaced } : ApiCapabilities)) ∈
        g.resources_by_stability ∧
      (eqIgnoreAsciiCase "deployment" appsDeployment.kind ||
        eqIgnoreAsciiCase "deployment" appsDeployment.plural) = true ∧
      ∀ g' ∈ [extensionsGroup, appsGroup], ∀ r' ∈ g'.resources_by_stability,
        (eqIgnoreAsciiCase "deployment" r'.1.kind ||
          eqIgnoreAsciiCase "deployment" r'.1.plural) = true →
        g.name ≤ g'.name :=
  c6_live_lookup_min_group [extensionsGroup, appsGroup] "deployment"
    appsDeployment { scope := Scope.namespaced } (by decide)

/-- C3: resolution tries the disk cache first — a cache hit is returned
as-is; on any cache failure (cache read error or no alias match) the
result is exactly that of the live path; and an error is reported only
when the cache lookup and the live lookup both failed. -/
theorem c3_cache_then_live (cache : Except String Discovery)
    (live : Except String (List LiveApiGroup)) (resource : String) :
    (∀ d rs, cache = Except.ok d →
      d.get_resource_from_name resource = Except.ok rs →
      create_client cache live resource = Except.ok rs) ∧
    (cacheLookupFailed cache resource = true →
      create_client cache live resource = create_client_live live resource) ∧
    (∀ e, create_client cache live resource = Except.error e →
      cacheLookupFailed cache resource = true ∧
      liveLookupFailed live resource = true) := by
  refine ⟨?_, ?_, ?_⟩
  · intro d rs hcache hlookup
    subst hcache
    simp [create_client, hlookup]
  · intro hfail
    cases cache with
    | error ec => simp [create_client]
    | ok d =>
      simp [cacheLookupFailed] at hfail
      cases hlookup : d.get_resource_from_name resource with
      | ok rs =>
        rw [hlookup] at hfail
        simp [Except.isOk, Except.toBool] at hfail
      | error el => simp [create_client, hlookup]
  · intro e herr
    cases cache with
    | error ec =>
      refine ⟨by simp [cacheLookupFailed], ?_⟩
      cases live with
      | error el => simp [liveLookupFailed]
      | ok groups =>
        simp [create_client, create_client_live] at herr
        cases hres : resolve_api_resource groups resource with
        | none => simp [liveLookupFailed, hres]
        | some rc =>
          obtain ⟨ar, cap⟩ := rc
          rw [hres] at herr
          simp at herr
    | ok d =>
      cases hlookup : d.get_resource_from_name resource with
      | ok rs =>
        simp [create_client, hlookup] at herr
      | error el =>
        simp [create_client, hlookup] at herr
        refine ⟨by simp [cacheLookupFailed, hlookup, Except.isOk, Except.toBool], ?_⟩
        cases live with
        | error e2 => simp [liveLookupFailed]
        | ok groups =>
          simp [create_client_live] at herr
          cases hres : resolve_api_resource groups resource with
          | none => simp [liveLookupFailed, hres]
          | some rc =>
            obtain ⟨ar, cap⟩ := rc
            rw [hres] at herr
            simp at herr

/-- C3 witness: with an unreadable cache and a live catalog exposing Pod,
resolution falls through to the live path. -/
theorem c3_cache_then_live_witness :
    create_client (Except.error "failed to read discovery cache")
      (Except.ok [{ name := ""
                    resources_by_stability :=
                      [(podApiResource, { scope := Scope.namespaced })] }])
      "pod" =
    create_client_live
      (Except.ok [{ name := ""
                    resources_by_stability :=
                      [(podApiResource, { scope := Scope.namespaced })] }])
      "pod" :=
  (c3_cache_then_live (Except.error "failed to read discovery cache")
    (Except.ok [{ name := ""
                  resources_by_stability :=
                    [(podApiResource, { scope := Scope.namespaced })] }])
    "pod").2.1 (by decide)
